import Mathlib

/-!
Shallow embedding of the charm-repository core of `gopkg.in/juju/charmrepo`
(files `charmstore.go` and the git-backend file), covering:

* the data model: charm/bundle URLs (name, series, revision), the flat
  file-system cache modelled as an association list from path to byte content;
* the registry backend (`CharmStore`): `archivePath`, `verifyHash384AndSize`,
  `Get`, `GetBundle`, `Latest`, `Resolve`;
* the VCS backend (`GitRepo`): `NewGitRepo`, `archivePath`, `Get`,
  `GetBundle`, `Resolve`.

External collaborators (the HTTP charm-store client, the SHA-384 hash, the
`charm.Quote` escaping function, `charm.URL.String`, `ioutil.TempFile` /
`TempDir` name generation, `git.PlainClone`, and the archive parsers) are
modelled as oracle parameters: the theorems quantify over them, so every
statement holds for all behaviours of the collaborators.  Byte streams are
`List Nat`; `io.Copy` of a network stream is modelled as delivering the
oracle-supplied byte list (truncation or corruption of the stream is
represented by that list differing from the declared expected size / hash).
Effects are made explicit: each operation returns its result together with
the resulting file system and a trace of the network / clone calls it made.
Go's `panic` is modelled as a distinguished error value.
-/

/-- A charm or bundle URL (`charm.URL` / `charm.Reference`): the fields the
repository code reads are the entity name, the target series (`"bundle"`
denotes a bundle, `""` an unspecified series) and the revision (`-1` means
unpinned). -/
structure CharmURL where
  name : String
  series : String
  revision : Int
  deriving DecidableEq, Repr

deriving instance DecidableEq for Except

/-- Models `curl.WithRevision(r)`: a copy of the URL with the revision replaced. -/
def CharmURL.withRevision (c : CharmURL) (r : Int) : CharmURL :=
  { c with revision := r }

/-- Errors surfaced by the repository operations.  Each constructor mirrors
one `errgo` error (or the `panic`) raised in the source, carrying the data
interpolated into the corresponding message. -/
inductive Err where
  /-- Models `panic("charm cache directory path is empty")` in `Get`/`GetBundle`. -/
  | panicEmptyCacheDir
  /-- Models `"expected a charm URL, got bundle URL %q"`. -/
  | expectedCharm (u : CharmURL)
  /-- Models `"expected a bundle URL, got charm URL %q"`. -/
  | expectedBundle (u : CharmURL)
  /-- Models `"cannot create the cache directory"`. -/
  | cannotCreateCacheDir
  /-- Models `"cannot retrieve %q: %s not found"` (cause `params.ErrNotFound`). -/
  | notFound (u : CharmURL) (etype : String)
  /-- Models `"cannot retrieve %s %q"` wrapping any other `GetArchive` failure. -/
  | cannotRetrieve (etype : String) (u : CharmURL)
  /-- Models `os.Open` failure inside `verifyHash384AndSize`. -/
  | openFailed (path : String)
  /-- Models `"size mismatch for %q"` from `verifyHash384AndSize`. -/
  | sizeMismatchFor (path : String)
  /-- Models `"hash mismatch for %q"` from `verifyHash384AndSize`. -/
  | hashMismatchFor (path : String)
  /-- Models `"cannot make temporary file"`. -/
  | cannotMakeTemp
  /-- Models `"cannot read entity archive"` (stream copy failure). -/
  | cannotReadArchive
  /-- Models `"size mismatch; network corruption?"`. -/
  | sizeMismatch
  /-- Models `"hash mismatch; network corruption?"`. -/
  | hashMismatch
  /-- Models `"cannot move the entity archive"`. -/
  | cannotMove
  /-- Models `"cannot get metadata from the charm store"`. -/
  | cannotGetMeta
  /-- Models `CharmNotFound(url)` placed in one slot of a `Latest` response. -/
  | charmNotFound (url : String)
  /-- Models `"cannot resolve URL %q: %s not found"` (cause `params.ErrNotFound`). -/
  | cannotResolveNotFound (u : CharmURL) (etype : String)
  /-- Models `"cannot resolve charm URL %q"` wrapping any other `Meta` failure. -/
  | cannotResolveOther (u : CharmURL)
  /-- Models `"no series specified for %s"` from `GitRepo.Resolve`. -/
  | noSeries (u : CharmURL)
  /-- Models `ioutil.TempDir` failure in `GitRepo.archivePath`. -/
  | tempDirFailed
  /-- Models `git.PlainClone` failure in `GitRepo.archivePath`. -/
  | cloneFailed
  /-- Models `charm.ReadCharmDir` failure after a successful clone. -/
  | readCharmFailed
  /-- missing-series error from `charm.SeriesForCharm`. -/
  | missingSeries
  /-- unsupported-series error from `charm.SeriesForCharm`. -/
  | unsupportedSeries (requested : String) (supported : List String)
  deriving DecidableEq, Repr

/-- The local file system visible to the cache store: a flat association
list from absolute path to byte content.  Later entries are shadowed by
earlier ones. -/
abbrev Fs : Type := List (String × List Nat)

/-- Content stored at `p`, if a file exists there. -/
def fsLookup (fs : Fs) (p : String) : Option (List Nat) :=
  match fs with
  | [] => none
  | e :: rest => if e.1 = p then some e.2 else fsLookup rest p

/-- Remove the file at `p` (no-op when absent). -/
def fsRemove (fs : Fs) (p : String) : Fs :=
  match fs with
  | [] => []
  | e :: rest => if e.1 = p then fsRemove rest p else e :: fsRemove rest p

/-- Create or overwrite the file at `p` with content `c`. -/
def fsInsert (fs : Fs) (p : String) (c : List Nat) : Fs :=
  (p, c) :: fsRemove fs p

/-- Models `utils.ReplaceFile(src, dst)`: atomically rename `src` onto `dst`. -/
def fsRename (fs : Fs) (src dst : String) : Fs :=
  match fsLookup fs src with
  | none => fs
  | some c => fsInsert (fsRemove fs src) dst c

namespace CharmStore

/-- Result of `csclient.Client.GetArchive`: the archive stream actually
delivered by the network, the entity id reported by the store (the string
form of the `*charm.URL` id), and the declared expected hash and size. -/
structure ArchiveResp where
  stream : List Nat
  id : String
  expectHash : String
  expectSize : Int
  deriving DecidableEq, Repr

/-- How `csclient.Client.GetArchive` can fail: with cause
`params.ErrNotFound`, or with any other transport error. -/
inductive GetArchiveErr where
  | notFound
  | other
  deriving DecidableEq, Repr

/-- Oracle for the external effects one `archivePath` call can perform:
whether `os.MkdirAll` succeeds, the outcome of the `GetArchive` network
call, the fresh file name chosen by `ioutil.TempFile` (`none` models its
failure), and whether the final `utils.ReplaceFile` rename succeeds. -/
structure Env where
  mkdirOk : Bool
  getArchive : Except GetArchiveErr ArchiveResp
  tempFile : Option String
  replaceOk : Bool

/-- Outcome of a registry-backend operation: the returned value or error,
the file system afterwards, and how many `GetArchive` network fetches were
performed. -/
structure Out (α : Type) where
  res : Except Err α
  fs : Fs
  fetches : Nat

/-- The entity type string computed from the URL series: `"bundle"` for
bundle URLs and `"charm"` otherwise. -/
def etypeOf (curl : CharmURL) : String :=
  if curl.series = "bundle" then "bundle" else "charm"

/-- Models `verifyHash384AndSize(path, expectHash, expectSize)`: open the file,
stream it through the hash, and compare the observed size first and the
observed hash second against the expected values.  `h` is the external
SHA-384 hex-digest function. -/
def verifyHash384AndSize (h : List Nat → String) (fs : Fs)
    (path expectHash : String) (expectSize : Int) : Except Err Unit :=
  match fsLookup fs path with
  | none => .error (.openFailed path)
  | some content =>
    if (content.length : Int) ≠ expectSize then .error (.sizeMismatchFor path)
    else if h content ≠ expectHash then .error (.hashMismatchFor path)
    else .ok ()

/-- The canonical cache path `filepath.Join(CacheDir, charm.Quote(id)+"."+etype)`.
`q` is the external `charm.Quote` escaping function. -/
def canonicalPath (q : String → String) (cacheDir id etype : String) : String :=
  cacheDir ++ "/" ++ q id ++ "." ++ etype

/-- Models `CharmStore.archivePath(curl)`: ensure the cache directory, fetch the
archive stream with its expected hash/size, return the cached file when it
already verifies, otherwise copy the stream to a fresh temp file while
hashing, check size then hash, and atomically promote the temp file to the
canonical path. -/
def archivePath (h : List Nat → String) (q : String → String)
    (cacheDir : String) (env : Env) (fs : Fs) (curl : CharmURL) : Out String :=
  if env.mkdirOk = false then ⟨.error .cannotCreateCacheDir, fs, 0⟩
  else
    let etype := etypeOf curl
    match env.getArchive with
    | .error .notFound => ⟨.error (.notFound curl etype), fs, 1⟩
    | .error .other => ⟨.error (.cannotRetrieve etype curl), fs, 1⟩
    | .ok resp =>
      let path := canonicalPath q cacheDir resp.id etype
      match verifyHash384AndSize h fs path resp.expectHash resp.expectSize with
      | .ok _ => ⟨.ok path, fs, 1⟩
      | .error _ =>
        match env.tempFile with
        | none => ⟨.error .cannotMakeTemp, fs, 1⟩
        | some tmp =>
          let tmpPath := cacheDir ++ "/" ++ tmp
          let fs1 := fsInsert fs tmpPath resp.stream
          if (resp.stream.length : Int) ≠ resp.expectSize then
            ⟨.error .sizeMismatch, fs1, 1⟩
          else if h resp.stream ≠ resp.expectHash then
            ⟨.error .hashMismatch, fs1, 1⟩
          else if env.replaceOk then ⟨.ok path, fsRename fs1 tmpPath path, 1⟩
          else ⟨.error .cannotMove, fs1, 1⟩

/-- Models `CharmStore.Get(curl)`: panic when the cache directory is unset, reject
bundle URLs, then produce the archive path (the final
`charm.ReadCharmArchive` parse of that path is an external collaborator). -/
def Get (h : List Nat → String) (q : String → String)
    (cacheDir : String) (env : Env) (fs : Fs) (curl : CharmURL) : Out String :=
  if cacheDir = "" then ⟨.error .panicEmptyCacheDir, fs, 0⟩
  else if curl.series = "bundle" then ⟨.error (.expectedCharm curl), fs, 0⟩
  else archivePath h q cacheDir env fs curl

/-- Models `CharmStore.GetBundle(curl)`: panic when the cache directory is unset,
reject non-bundle URLs, then produce the archive path (the final
`charm.ReadBundleArchive` parse is an external collaborator). -/
def GetBundle (h : List Nat → String) (q : String → String)
    (cacheDir : String) (env : Env) (fs : Fs) (curl : CharmURL) : Out String :=
  if cacheDir = "" then ⟨.error .panicEmptyCacheDir, fs, 0⟩
  else if curl.series ≠ "bundle" then ⟨.error (.expectedBundle curl), fs, 0⟩
  else archivePath h q cacheDir env fs curl

/-- One slot of a `Latest` response (`CharmRevision`): revision, sha-256 and
an optional per-slot error.  Absent fields keep Go's zero values. -/
structure CharmRevision where
  revision : Int
  sha256 : String
  err : Option Err
  deriving DecidableEq, Repr

/-- The metadata the `/meta/any` response carries for one id: the
`id-revision` revision and the `hash256` sum. -/
structure MetaAny where
  revision : Int
  sum : String
  deriving DecidableEq, Repr

/-- Outcome of `Latest`: the result (or error) plus the number of
`client.Get` metadata network calls performed. -/
structure LatestOut where
  res : Except Err (List CharmRevision)
  netCalls : Nat
  deriving DecidableEq, Repr

/-- Models `CharmStore.Latest(curls...)`: an empty input returns immediately with
no network call; otherwise one batched `/meta/any` request is issued, keyed
by each URL's revision-stripped string form, and each slot of the response
is filled order-aligned, with `CharmNotFound` for ids absent from the
response map.  `toStr` is the external `charm.URL.String`; `resp` is the
oracle outcome of the single `client.Get` call (`.error` for a failed
request, otherwise the decoded response map). -/
def Latest (toStr : CharmURL → String)
    (resp : Except Unit (String → Option MetaAny))
    (curls : List CharmURL) : LatestOut :=
  if curls = [] then ⟨.ok [], 0⟩
  else
    let urls := curls.map (fun c => toStr (c.withRevision (-1)))
    match resp with
    | .error _ => ⟨.error .cannotGetMeta, 1⟩
    | .ok results =>
      ⟨.ok (urls.map (fun u =>
        match results u with
        | none => { revision := 0, sha256 := "", err := some (.charmNotFound u) }
        | some m => { revision := m.revision, sha256 := m.sum, err := none })), 1⟩

/-- How `csclient.Client.Meta` can fail: with cause `params.ErrNotFound`,
or with any other error. -/
inductive MetaErr where
  | notFound
  | other
  deriving DecidableEq, Repr

/-- Outcome of `CharmStore.Resolve`: the resolved reference together with
the (always empty) supported-series list, plus the number of `client.Meta`
network calls performed. -/
structure ResolveOut where
  res : Except Err (CharmURL × List String)
  metaCalls : Nat
  deriving DecidableEq, Repr

/-- Models `CharmStore.Resolve(ref)`: unconditionally issue one `client.Meta`
request; on `params.ErrNotFound` build the prettier not-found error whose
entity type depends on the series; otherwise return the id reported by the
store (`result.Id.Id`) with a nil supported-series list.  `meta` is the
oracle outcome of the `client.Meta` call. -/
def Resolve (meta : Except MetaErr CharmURL) (ref : CharmURL) : ResolveOut :=
  match meta with
  | .error .notFound =>
    let etype :=
      if ref.series = "bundle" then "bundle"
      else if ref.series = "" then "charm or bundle"
      else "charm"
    ⟨.error (.cannotResolveNotFound ref etype), 1⟩
  | .error .other => ⟨.error (.cannotResolveOther ref), 1⟩
  | .ok id => ⟨.ok (id, []), 1⟩

end CharmStore

/-- The question-mark separator used by the git backend's reference syntax
`<remote-uri>[?<ref>]`. -/
def qmark : Char := ('?')

/-- Go's `strings.Split(s, sep)` for a single-character separator, on the
character list of `s`: split around every occurrence of `sep`; the result
is never empty. -/
def splitOnChar (sep : Char) : List Char → List (List Char)
  | [] => [[]]
  | c :: cs =>
    if c = sep then [] :: splitOnChar sep cs
    else
      match splitOnChar sep cs with
      | [] => [[c]]
      | t :: ts => (c :: t) :: ts

/-- Models `GitRepo`: a git remote used for checking out charm code, holding the
remote URI and the git reference parsed out of the charm name. -/
structure GitRepo where
  remoteURI : List Char
  reference : List Char
  deriving DecidableEq, Repr

/-- Models `NewGitRepo(ref)`: split the charm name on `"?"`; the remote URI is the
first token, and the reference is the second token when present, `"HEAD"`
otherwise. -/
def NewGitRepo (ref : CharmURL) : GitRepo :=
  let tokens := splitOnChar qmark ref.name.toList
  { remoteURI := tokens.headD []
    reference := if tokens.length > 1 then tokens.getD 1 [] else "HEAD".toList }

/-- The options the git backend passes to `git.PlainClone`: the remote URL
and submodule recursion.  `referenceName` records which named ref the clone
is asked to check out; the source sets no such option (`none`), so the
working tree is left at the remote's default HEAD. -/
structure CloneOptions where
  url : List Char
  recurseSubmodules : Bool
  referenceName : Option (List Char)
  deriving DecidableEq, Repr

/-- What one successfully parsed charm directory yields (`charm.Charm`):
the fields the git backend reads are `Revision()` and `Meta().Series`. -/
structure CharmData where
  revision : Int
  metaSeries : List String
  deriving DecidableEq, Repr

/-- Oracle for the external effects of the git backend: the fresh scratch
directory chosen by `ioutil.TempDir` (`none` models its failure), whether
`git.PlainClone` succeeds, and the outcome of `charm.ReadCharmDir` on a
given working-tree path. -/
structure GitEnv where
  tempDir : Option String
  cloneOk : Bool
  readCharm : String → Except Unit CharmData

/-- Outcome of a git-backend operation: the returned value or error, plus
the trace of `git.PlainClone` calls made (in order, with their options). -/
structure GitOut (α : Type) where
  res : Except Err α
  clones : List CloneOptions

namespace GitRepo

/-- Models `GitRepo.archivePath(checkout)`: obtain a fresh scratch directory and
clone the remote into it, recursing into submodules; the checked-out tree
(at the remote's default HEAD — no reference option is set) is returned as
the artifact path. -/
def archivePath (g : GitRepo) (env : GitEnv) : GitOut String :=
  match env.tempDir with
  | none => ⟨.error .tempDirFailed, []⟩
  | some d =>
    let opts : CloneOptions :=
      { url := g.remoteURI, recurseSubmodules := true, referenceName := none }
    if env.cloneOk then ⟨.ok d, [opts]⟩ else ⟨.error .cloneFailed, [opts]⟩

/-- Models `GitRepo.Get(checkout)`: reject bundle URLs, clone via `archivePath`,
then parse the working tree with `charm.ReadCharmDir`. -/
def Get (g : GitRepo) (env : GitEnv) (checkout : CharmURL) : GitOut CharmData :=
  if checkout.series = "bundle" then ⟨.error (.expectedCharm checkout), []⟩
  else
    match g.archivePath env with
    | ⟨.error e, t⟩ => ⟨.error e, t⟩
    | ⟨.ok path, t⟩ =>
      match env.readCharm path with
      | .error _ => ⟨.error .readCharmFailed, t⟩
      | .ok ch => ⟨.ok ch, t⟩

/-- Models `GitRepo.GetBundle(checkout)`: reject non-bundle URLs, clone via
`archivePath` and hand the working-tree path to the external
`charm.ReadBundleArchive`. -/
def GetBundle (g : GitRepo) (env : GitEnv) (checkout : CharmURL) :
    GitOut String :=
  if checkout.series ≠ "bundle" then ⟨.error (.expectedBundle checkout), []⟩
  else g.archivePath env

end GitRepo

/-- Models `charm.SeriesForCharm(requestedSeries, supportedSeries)` (external
collaborator from the charm package): pick the series to use, failing when
the requested series is not declared supported. -/
def seriesForCharm (requested : String) (supported : List String) :
    Except Err String :=
  if supported = [] then
    if requested = "" then .error .missingSeries else .ok requested
  else if requested = "" then .ok (supported.headD "")
  else if requested ∈ supported then .ok requested
  else .error (.unsupportedSeries requested supported)

namespace GitRepo

/-- Models `GitRepo.Resolve(checkout)`: fail on an empty series; return pinned
references unchanged; pin bundles to revision 0; otherwise materialize the
charm via `Get`, validate the series against the charm metadata, and pin
the reference to the charm's own revision.  The supported-series component
of the result is always nil. -/
def Resolve (g : GitRepo) (env : GitEnv) (checkout : CharmURL) :
    GitOut (CharmURL × List String) :=
  if checkout.series = "" then ⟨.error (.noSeries checkout), []⟩
  else if checkout.revision ≠ -1 then ⟨.ok (checkout, []), []⟩
  else if checkout.series = "bundle" then
    ⟨.ok (checkout.withRevision 0, []), []⟩
  else
    match g.Get env checkout with
    | ⟨.error e, t⟩ => ⟨.error e, t⟩
    | ⟨.ok ch, t⟩ =>
      match seriesForCharm checkout.series ch.metaSeries with
      | .error e => ⟨.error e, t⟩
      | .ok _ => ⟨.ok (checkout.withRevision ch.revision, []), t⟩

end GitRepo

/-! Concrete fixtures used by witness and counterexample theorems.  The
digest stand-in maps a byte list to the decimal rendering of its length and
sum, so distinct small contents get distinct digests. -/

/-- A concrete stand-in for the external SHA-384 hex-digest function. -/
def hashFix : List Nat → String :=
  fun bs => toString bs.length ++ "-" ++ toString bs.sum

/-- A concrete archive response fixture: entity id `X`, expected digest the
one of content `[7]`, expected size 1. -/
def respFix : CharmStore.ArchiveResp :=
  { stream := [9, 9], id := "X", expectHash := "1-7", expectSize := 1 }

/-- An environment fixture whose fetch succeeds with `respFix`. -/
def envFix : CharmStore.Env :=
  { mkdirOk := true, getArchive := .ok respFix
    tempFile := some "charm-download1", replaceOk := true }

/-- A cache holding a valid copy of `respFix` at the canonical path. -/
def fsFix : Fs := [("cd/X.charm", [7])]

/-- An archive response fixture whose delivered stream is shorter than the
declared expected size (a truncated download). -/
def respShort : CharmStore.ArchiveResp :=
  { stream := [0], id := "X", expectHash := "2-0", expectSize := 2 }

/-- An environment fixture whose fetch delivers the truncated `respShort`. -/
def envShort : CharmStore.Env :=
  { mkdirOk := true, getArchive := .ok respShort
    tempFile := some "charm-download1", replaceOk := true }

/-- A charm URL fixture for a non-bundle series. -/
def curlFix : CharmURL := { name := "wordpress", series := "trusty", revision := 3 }

/-- A git-backend environment fixture: scratch directory and clone succeed,
and the working tree parses as a revision-3 charm supporting trusty. -/
def gitEnvFix : GitEnv :=
  { tempDir := some "/tmp/juju-clone1", cloneOk := true
    readCharm := fun _ => .ok { revision := 3, metaSeries := ["trusty"] } }

/-- The slot `Latest` is specified to produce for one queried reference:
the revision/hash metadata when the response map contains the reference's
revision-stripped string form, and a `CharmNotFound` error in that slot
when it is absent. -/
def CharmStore.latestSlot (toStr : CharmURL → String)
    (results : String → Option CharmStore.MetaAny) (c : CharmURL) :
    CharmStore.CharmRevision :=
  match results (toStr (c.withRevision (-1))) with
  | none => { revision := 0, sha256 := "", err := some (.charmNotFound (toStr (c.withRevision (-1)))) }
  | some m => { revision := m.revision, sha256 := m.sum, err := none }

/-! Helper lemmas about the file-system model and the split function. -/

theorem fsLookup_fsRemove_ne (fs : Fs) (p p' : String) (hne : p ≠ p') :
    fsLookup (fsRemove fs p) p' = fsLookup fs p' := by
  induction fs with
  | nil => rfl
  | cons e rest ih =>
    simp only [fsRemove]
    by_cases he : e.1 = p
    · have hne' : e.1 ≠ p' := by
        rw [he]
        exact hne
      rw [if_pos he, ih]
      simp only [fsLookup, if_neg hne']
    · rw [if_neg he]
      simp only [fsLookup]
      by_cases he' : e.1 = p'
      · simp [he']
      · simp [he', ih]

theorem fsLookup_fsInsert_ne (fs : Fs) (p p' : String) (c : List Nat)
    (hne : p ≠ p') : fsLookup (fsInsert fs p c) p' = fsLookup fs p' := by
  simp only [fsInsert, fsLookup, if_neg hne]
  exact fsLookup_fsRemove_ne fs p p' hne

theorem splitOnChar_ne_nil (sep : Char) (l : List Char) :
    splitOnChar sep l ≠ [] := by
  cases l with
  | nil => simp [splitOnChar]
  | cons c cs =>
    simp only [splitOnChar]
    by_cases hc : c = sep
    · simp [hc]
    · simp only [if_neg hc]
      cases splitOnChar sep cs with
      | nil => simp
      | cons t ts => simp

theorem splitOnChar_not_mem (sep : Char) (l : List Char) (hl : sep ∉ l) :
    splitOnChar sep l = [l] := by
  induction l with
  | nil => rfl
  | cons c cs ih =>
    have hc : ¬c = sep := by
      intro hcs
      exact hl (hcs ▸ List.mem_cons_self c cs)
    have hcs : sep ∉ cs := fun hmem => hl (List.mem_cons_of_mem c hmem)
    simp [splitOnChar, hc, ih hcs]

theorem splitOnChar_append (sep : Char) (a b : List Char) (ha : sep ∉ a) :
    splitOnChar sep (a ++ sep :: b) = a :: splitOnChar sep b := by
  induction a with
  | nil => simp [splitOnChar]
  | cons c cs ih =>
    have hc : ¬c = sep := by
      intro hcs
      exact ha (hcs ▸ List.mem_cons_self c cs)
    have hcs : sep ∉ cs := fun hmem => ha (List.mem_cons_of_mem c hmem)
    simp only [List.cons_append, splitOnChar, List.append_eq, if_neg hc, ih hcs]

/-- Claim C7: whenever the cache directory configuration is absent
(`CacheDir` is the empty string), `CharmStore.Get` and
`CharmStore.GetBundle` fail loudly and immediately with the
"charm cache directory path is empty" panic, before any archive fetch is
attempted (zero `GetArchive` calls) and with the file system untouched —
no silent defaulting of a cache path. -/
theorem C7_cacheDir_unset_fails_before_fetch (h : List Nat → String)
    (q : String → String) (env : CharmStore.Env) (fs : Fs) (curl : CharmURL) :
    CharmStore.Get h q "" env fs curl = ⟨.error .panicEmptyCacheDir, fs, 0⟩
    ∧ CharmStore.GetBundle h q "" env fs curl =
        ⟨.error .panicEmptyCacheDir, fs, 0⟩ :=
  ⟨rfl, rfl⟩

/-- Claim C6: for every VCS-backend reference with series `"bundle"` and
unpinned revision (`-1`), `GitRepo.Resolve` returns the reference with the
revision pinned to `0` and no error, performing no clone (empty clone
trace) and reading no metadata. -/
theorem C6_git_bundle_resolves_to_zero (g : GitRepo) (env : GitEnv)
    (n : String) :
    GitRepo.Resolve g env { name := n, series := "bundle", revision := -1 } =
      ⟨.ok ({ name := n, series := "bundle", revision := 0 }, []), []⟩ := rfl

/-- Claim C2: for every charm URL, if a file already exists at the
canonical cache path `<CacheDir>/<quoted identity>.<kind>` and streaming
that file yields exactly the expected hash and expected size, then
`CharmStore.archivePath` returns that path with the file system unchanged
(no new file is written; the archive stream that was opened by the single
fetch is discarded). -/
theorem C2_cache_hit_no_rewrite (h : List Nat → String) (q : String → String)
    (cacheDir : String) (env : CharmStore.Env) (fs : Fs) (curl : CharmURL)
    (resp : CharmStore.ArchiveResp) (content : List Nat)
    (hm : env.mkdirOk = true)
    (hg : env.getArchive = .ok resp)
    (hfile : fsLookup fs
      (CharmStore.canonicalPath q cacheDir resp.id (CharmStore.etypeOf curl)) =
      some content)
    (hsize : (content.length : Int) = resp.expectSize)
    (hhash : h content = resp.expectHash) :
    CharmStore.archivePath h q cacheDir env fs curl =
      ⟨.ok (CharmStore.canonicalPath q cacheDir resp.id
        (CharmStore.etypeOf curl)), fs, 1⟩ := by
  have hv : CharmStore.verifyHash384AndSize h fs
      (CharmStore.canonicalPath q cacheDir resp.id (CharmStore.etypeOf curl))
      resp.expectHash resp.expectSize = .ok () := by
    simp [CharmStore.verifyHash384AndSize, hfile, hsize, hhash]
  simp [CharmStore.archivePath, hm, hg, hv]

/-- Witness for C2: with the concrete digest stand-in, a cache already
holding the one-byte file `[7]` at `cd/X.charm`, and a fetch declaring
exactly that hash and size, `archivePath` is a cache hit that leaves the
file system unchanged. -/
theorem C2_cache_hit_no_rewrite_witness :
    CharmStore.archivePath hashFix id "cd" envFix fsFix curlFix =
      ⟨.ok (CharmStore.canonicalPath id "cd" respFix.id
        (CharmStore.etypeOf curlFix)), fsFix, 1⟩ :=
  C2_cache_hit_no_rewrite hashFix id "cd" envFix fsFix curlFix respFix [7]
    rfl rfl (by decide) (by decide) (by decide)

/-- Claim C5 (amended): the type-mismatch rejections hold as stated on the
VCS backend unconditionally, and on the registry backend provided the
cache directory is configured (non-empty): `Get` on a bundle-series
reference fails with the expected-charm error and `GetBundle` on a
non-bundle reference fails with the expected-bundle error, in each case
with no archive fetch and no clone.  (When the cache directory is empty
the registry backend panics first instead — see the counterexample.) -/
theorem C5_type_mismatch_amended :
    (∀ (h : List Nat → String) (q : String → String) (cacheDir : String)
        (env : CharmStore.Env) (fs : Fs) (curl : CharmURL),
      cacheDir ≠ "" → curl.series = "bundle" →
      CharmStore.Get h q cacheDir env fs curl =
        ⟨.error (.expectedCharm curl), fs, 0⟩)
    ∧ (∀ (h : List Nat → String) (q : String → String) (cacheDir : String)
        (env : CharmStore.Env) (fs : Fs) (curl : CharmURL),
      cacheDir ≠ "" → curl.series ≠ "bundle" →
      CharmStore.GetBundle h q cacheDir env fs curl =
        ⟨.error (.expectedBundle curl), fs, 0⟩)
    ∧ (∀ (g : GitRepo) (env : GitEnv) (curl : CharmURL),
      curl.series = "bundle" →
      GitRepo.Get g env curl = ⟨.error (.expectedCharm curl), []⟩)
    ∧ (∀ (g : GitRepo) (env : GitEnv) (curl : CharmURL),
      curl.series ≠ "bundle" →
      GitRepo.GetBundle g env curl = ⟨.error (.expectedBundle curl), []⟩) := by
  refine ⟨?_, ?_, ?_, ?_⟩
  · intro h q cacheDir env fs curl hcd hser
    simp [CharmStore.Get, hcd, hser]
  · intro h q cacheDir env fs curl hcd hser
    simp [CharmStore.GetBundle, hcd, hser]
  · intro g env curl hser
    simp [GitRepo.Get, hser]
  · intro g env curl hser
    simp [GitRepo.GetBundle, hser]

/-- Witness for the amended C5: concrete instances of the registry-backend
`Get` rejection (configured cache directory, bundle-series reference) and
of the VCS-backend `GetBundle` rejection (charm-series reference). -/
theorem C5_type_mismatch_amended_witness :
    CharmStore.Get hashFix id "cd" envFix fsFix
        { name := "things", series := "bundle", revision := -1 } =
      ⟨.error (.expectedCharm
        { name := "things", series := "bundle", revision := -1 }), fsFix, 0⟩
    ∧ GitRepo.GetBundle (NewGitRepo curlFix) gitEnvFix curlFix =
      ⟨.error (.expectedBundle curlFix), []⟩ :=
  ⟨C5_type_mismatch_amended.1 hashFix id "cd" envFix fsFix _ (by decide) rfl,
   C5_type_mismatch_amended.2.2.2 (NewGitRepo curlFix) gitEnvFix curlFix
     (by decide)⟩

/-- Counterexample to C5 as stated: with the cache directory unset, the
registry backend's `Get` on a bundle-series reference fails with the
empty-cache-directory panic, not with the type-mismatch error the claim
requires for every reference. -/
theorem C5_type_mismatch_counterexample :
    (CharmStore.Get hashFix id "" envFix fsFix
        { name := "things", series := "bundle", revision := -1 }).res =
      .error .panicEmptyCacheDir
    ∧ (CharmStore.Get hashFix id "" envFix fsFix
        { name := "things", series := "bundle", revision := -1 }).res ≠
      .error (.expectedCharm
        { name := "things", series := "bundle", revision := -1 }) := by
  exact ⟨rfl, by decide⟩

/-- Claim C1 (amended): when the fetched stream's byte count or hash
diverges from the declared expected values (after a cache miss),
`CharmStore.archivePath` fails with the corresponding mismatch error —
size checked first — and no file appears at the canonical cache path (its
content is exactly as before the call); however, the temporary download
file is not removed: the resulting cache directory is the old one plus the
leftover temp file holding the fetched bytes. -/
theorem C1_mismatch_not_promoted_amended (h : List Nat → String)
    (q : String → String) (cacheDir : String) (env : CharmStore.Env)
    (fs : Fs) (curl : CharmURL) (resp : CharmStore.ArchiveResp) (tmp : String)
    (hm : env.mkdirOk = true)
    (hg : env.getArchive = .ok resp)
    (hmiss : CharmStore.verifyHash384AndSize h fs
      (CharmStore.canonicalPath q cacheDir resp.id (CharmStore.etypeOf curl))
      resp.expectHash resp.expectSize ≠ .ok ())
    (ht : env.tempFile = some tmp)
    (hne : cacheDir ++ "/" ++ tmp ≠
      CharmStore.canonicalPath q cacheDir resp.id (CharmStore.etypeOf curl)) :
    ((resp.stream.length : Int) ≠ resp.expectSize →
      CharmStore.archivePath h q cacheDir env fs curl =
        ⟨.error .sizeMismatch,
          fsInsert fs (cacheDir ++ "/" ++ tmp) resp.stream, 1⟩)
    ∧ ((resp.stream.length : Int) = resp.expectSize →
        h resp.stream ≠ resp.expectHash →
      CharmStore.archivePath h q cacheDir env fs curl =
        ⟨.error .hashMismatch,
          fsInsert fs (cacheDir ++ "/" ++ tmp) resp.stream, 1⟩)
    ∧ fsLookup (fsInsert fs (cacheDir ++ "/" ++ tmp) resp.stream)
        (CharmStore.canonicalPath q cacheDir resp.id (CharmStore.etypeOf curl)) =
      fsLookup fs
        (CharmStore.canonicalPath q cacheDir resp.id (CharmStore.etypeOf curl)) := by
  have hv : ∃ e, CharmStore.verifyHash384AndSize h fs
      (CharmStore.canonicalPath q cacheDir resp.id (CharmStore.etypeOf curl))
      resp.expectHash resp.expectSize = .error e := by
    cases hveq : CharmStore.verifyHash384AndSize h fs
        (CharmStore.canonicalPath q cacheDir resp.id (CharmStore.etypeOf curl))
        resp.expectHash resp.expectSize with
    | ok u =>
      cases u
      exact absurd hveq hmiss
    | error e => exact ⟨e, rfl⟩
  obtain ⟨e, hv⟩ := hv
  refine ⟨?_, ?_, ?_⟩
  · intro hsz
    simp [CharmStore.archivePath, hm, hg, hv, ht, hsz]
  · intro hsz hh
    simp [CharmStore.archivePath, hm, hg, hv, ht, hsz, hh]
  · exact fsLookup_fsInsert_ne fs (cacheDir ++ "/" ++ tmp)
      (CharmStore.canonicalPath q cacheDir resp.id (CharmStore.etypeOf curl))
      resp.stream hne

/-- Witness for the amended C1: a truncated download (one byte delivered,
two expected) from an empty cache fails with the size-mismatch error and
leaves exactly the temp file behind, with nothing at the canonical path. -/
theorem C1_mismatch_not_promoted_amended_witness :
    CharmStore.archivePath hashFix id "cd" envShort [] curlFix =
      ⟨.error .sizeMismatch,
        fsInsert [] ("cd" ++ "/" ++ "charm-download1") respShort.stream, 1⟩
    ∧ fsLookup (fsInsert ([] : Fs) ("cd" ++ "/" ++ "charm-download1")
        respShort.stream)
        (CharmStore.canonicalPath id "cd" respShort.id
          (CharmStore.etypeOf curlFix)) =
      fsLookup ([] : Fs)
        (CharmStore.canonicalPath id "cd" respShort.id
          (CharmStore.etypeOf curlFix)) :=
  ⟨(C1_mismatch_not_promoted_amended hashFix id "cd" envShort [] curlFix
      respShort "charm-download1" rfl rfl (by decide) rfl (by decide)).1
      (by decide),
   (C1_mismatch_not_promoted_amended hashFix id "cd" envShort [] curlFix
      respShort "charm-download1" rfl rfl (by decide) rfl (by decide)).2.2⟩

/-- Counterexample to C1 as stated: after the size-mismatch failure the
cache directory is not unchanged — the temporary download file
`cd/charm-download1` is left behind holding the fetched bytes, so the
claim's "the temporary download file is discarded so the cache directory
is unchanged" conjunct is false on the code. -/
theorem C1_mismatch_counterexample :
    (CharmStore.archivePath hashFix id "cd" envShort [] curlFix).res =
      .error .sizeMismatch
    ∧ fsLookup (CharmStore.archivePath hashFix id "cd" envShort [] curlFix).fs
        "cd/charm-download1" = some [0]
    ∧ (CharmStore.archivePath hashFix id "cd" envShort [] curlFix).fs ≠
        ([] : Fs) := by
  decide

/-- Claim C3 (amended): on the VCS backend, `Resolve` of a reference with a
non-empty series and a pinned revision (`≠ -1`) returns the reference
unchanged with no error and performs no clone.  On the registry backend the
claim fails: `CharmStore.Resolve` unconditionally issues exactly one
`client.Meta` network call — even for pinned references — and returns the
id reported by the store rather than the input reference. -/
theorem C3_pinned_resolve_amended :
    (∀ (g : GitRepo) (env : GitEnv) (checkout : CharmURL),
      checkout.series ≠ "" → checkout.revision ≠ -1 →
      GitRepo.Resolve g env checkout = ⟨.ok (checkout, []), []⟩)
    ∧ (∀ (meta : Except CharmStore.MetaErr CharmURL) (ref : CharmURL),
      (CharmStore.Resolve meta ref).metaCalls = 1)
    ∧ (∀ (idr ref : CharmURL),
      (CharmStore.Resolve (.ok idr) ref).res = .ok (idr, [])) := by
  refine ⟨?_, ?_, ?_⟩
  · intro g env checkout hser hrev
    simp [GitRepo.Resolve, hser, hrev]
  · intro meta ref
    cases meta with
    | error m => cases m <;> rfl
    | ok idr => rfl
  · intro idr ref
    rfl

/-- Witness for the amended C3: a pinned trusty reference resolves
unchanged with an empty clone trace on the VCS backend, and the registry
backend's `Resolve` performs its one metadata call. -/
theorem C3_pinned_resolve_amended_witness :
    GitRepo.Resolve (NewGitRepo curlFix) gitEnvFix curlFix =
      ⟨.ok (curlFix, []), []⟩
    ∧ (CharmStore.Resolve (.ok curlFix) curlFix).metaCalls = 1 :=
  ⟨C3_pinned_resolve_amended.1 (NewGitRepo curlFix) gitEnvFix curlFix
      (by decide) (by decide),
   C3_pinned_resolve_amended.2.1 (.ok curlFix) curlFix⟩

/-- Counterexample to C3 as stated: for the pinned reference
`wordpress/trusty` revision 3, the registry backend performs a metadata
network call (`metaCalls ≠ 0`), and when the store reports a different id
the result is that id, not the unchanged input reference. -/
theorem C3_pinned_resolve_counterexample :
    (CharmStore.Resolve
        (.ok { name := "wordpress", series := "trusty", revision := 7 })
        { name := "wordpress", series := "trusty", revision := 3 }).metaCalls ≠ 0
    ∧ (CharmStore.Resolve
        (.ok { name := "wordpress", series := "trusty", revision := 7 })
        { name := "wordpress", series := "trusty", revision := 3 }).res ≠
      .ok ({ name := "wordpress", series := "trusty", revision := 3 }, []) := by
  decide

/-- Claim C4: `CharmStore.Latest` on `n` references succeeds with exactly
`n` `RevisionInfo` slots, order-aligned with the inputs, each slot carrying
the response metadata for that reference's revision-stripped string, or a
`CharmNotFound` error in its own slot when the reference is absent from
the response map (the whole call does not fail); and `Latest` on the empty
list returns the empty result with zero network calls, for every possible
network outcome. -/
theorem C4_latest_order_aligned (toStr : CharmURL → String)
    (results : String → Option CharmStore.MetaAny) (curls : List CharmURL) :
    (∃ rs, (CharmStore.Latest toStr (.ok results) curls).res = .ok rs
      ∧ rs.length = curls.length
      ∧ ∀ i : Nat, rs[i]? =
          curls[i]?.map (CharmStore.latestSlot toStr results))
    ∧ (∀ resp, CharmStore.Latest toStr resp [] = ⟨.ok [], 0⟩) := by
  constructor
  · by_cases hc : curls = []
    · subst hc
      exact ⟨[], rfl, rfl, fun i => rfl⟩
    · refine ⟨(curls.map (fun c => toStr (c.withRevision (-1)))).map
        (fun u => match results u with
          | none => { revision := 0, sha256 := ""
                      err := some (.charmNotFound u) }
          | some m => { revision := m.revision, sha256 := m.sum, err := none }),
        ?_, ?_, ?_⟩
      · simp [CharmStore.Latest, hc]
      · simp
      · intro i
        simp only [List.getElem?_map]
        cases curls[i]? with
        | none => rfl
        | some c => rfl
  · intro resp
    rfl

/-- Claim C8 (amended): constructing a `GitRepo` splits the identifier's
name at `"?"` tokens: when the name contains no `"?"`, the remote URI is
the whole name and the reference pointer defaults to `"HEAD"`; when the
name is `<uri>?<rest>` (with no `"?"` in `<uri>`), the remote URI is
`<uri>` and the reference pointer is the first `"?"`-separated token of
`<rest>` — i.e. the text between the first and second `"?"`, with anything
after a second `"?"` dropped rather than kept in the pointer. -/
theorem C8_split_amended :
    (∀ (u : CharmURL), qmark ∉ u.name.toList →
      (NewGitRepo u).remoteURI = u.name.toList
      ∧ (NewGitRepo u).reference = "HEAD".toList)
    ∧ (∀ (u : CharmURL) (a b : List Char), qmark ∉ a →
      u.name.toList = a ++ qmark :: b →
      (NewGitRepo u).remoteURI = a
      ∧ (NewGitRepo u).reference = (splitOnChar qmark b).headD []) := by
  constructor
  · intro u hnot
    have hs : splitOnChar qmark u.name.data = [u.name.data] :=
      splitOnChar_not_mem qmark u.name.toList hnot
    constructor
    · simp [NewGitRepo, hs]
    · simp [NewGitRepo, hs]
  · intro u a b ha hsplit
    cases hsb : splitOnChar qmark b with
    | nil => exact absurd hsb (splitOnChar_ne_nil qmark b)
    | cons t ts =>
      have hs : splitOnChar qmark u.name.data = a :: t :: ts := by
        have : u.name.data = a ++ qmark :: b := hsplit
        rw [this, splitOnChar_append qmark a b ha, hsb]
      have hlen : 1 < (a :: t :: ts).length := by
        simp only [List.length_cons]
        omega
      constructor
      · simp [NewGitRepo, hs]
      · simp [NewGitRepo, hs, hlen]

/-- Witness for the amended C8: the identifier name `repo?branch` parses
into remote URI `repo` with reference pointer `branch` (the first token of
the text after the `"?"`). -/
theorem C8_split_amended_witness :
    (NewGitRepo { name := "repo?branch", series := "trusty", revision := -1 }).remoteURI =
      "repo".toList
    ∧ (NewGitRepo { name := "repo?branch", series := "trusty", revision := -1 }).reference =
      (splitOnChar qmark "branch".toList).headD [] :=
  C8_split_amended.2
    { name := "repo?branch", series := "trusty", revision := -1 }
    "repo".toList "branch".toList (by decide) (by decide)

/-- Counterexample to C8 as stated: for the name `repo?branch?extra` the
part after the (first) `"?"` is `branch?extra`, but `NewGitRepo` sets the
reference pointer to `branch` — the second split token — dropping
`?extra`. -/
theorem C8_split_counterexample :
    (NewGitRepo { name := "repo?branch?extra", series := "trusty", revision := -1 }).remoteURI =
      "repo".toList
    ∧ (NewGitRepo { name := "repo?branch?extra", series := "trusty", revision := -1 }).reference =
      "branch".toList
    ∧ (NewGitRepo { name := "repo?branch?extra", series := "trusty", revision := -1 }).reference ≠
      "branch?extra".toList := by
  decide

/-- Claim C9 (code bug): the git backend parses a `?ref` pointer
(`mybranch` here) out of the identifier, and a `Get` call succeeds by
cloning into a fresh scratch directory — but the clone options it passes
carry no reference name at all (`referenceName = none`), so the working
tree is left at the remote's default HEAD instead of being checked out at
the resolved backend reference as the spec (and the code's own comment)
require. -/
theorem C9_clone_ignores_parsed_ref :
    (NewGitRepo { name := "repo?mybranch", series := "trusty", revision := -1 }).reference =
      "mybranch".toList
    ∧ (GitRepo.Get
        (NewGitRepo { name := "repo?mybranch", series := "trusty", revision := -1 })
        gitEnvFix
        { name := "repo?mybranch", series := "trusty", revision := -1 }).res =
      .ok { revision := 3, metaSeries := ["trusty"] }
    ∧ (GitRepo.Get
        (NewGitRepo { name := "repo?mybranch", series := "trusty", revision := -1 })
        gitEnvFix
        { name := "repo?mybranch", series := "trusty", revision := -1 }).clones =
      [{ url := "repo".toList, recurseSubmodules := true, referenceName := none }] :=
  ⟨by decide, rfl, by decide⟩

/-- Claim C10: on every successful `Resolve` of either backend, the second
returned component (the extra supported-series list) is empty, regardless
of the reference, the oracle outcomes, or any series declared in the
artifact's metadata. -/
theorem C10_resolve_extra_series_nil :
    (∀ (g : GitRepo) (env : GitEnv) (c : CharmURL) (p : CharmURL × List String),
      (GitRepo.Resolve g env c).res = .ok p → p.2 = [])
    ∧ (∀ (meta : Except CharmStore.MetaErr CharmURL) (ref : CharmURL)
        (p : CharmURL × List String),
      (CharmStore.Resolve meta ref).res = .ok p → p.2 = []) := by
  constructor
  · intro g env c p hp
    simp only [GitRepo.Resolve] at hp
    split at hp
    · simp_all
    · split at hp
      · simp at hp
        exact (congrArg Prod.snd hp).symm
      · split at hp
        · simp at hp
          exact (congrArg Prod.snd hp).symm
        · split at hp
          · simp_all
          · split at hp
            · simp_all
            · simp at hp
              exact (congrArg Prod.snd hp).symm
  · intro meta ref p hp
    cases meta with
    | error m => cases m <;> simp [CharmStore.Resolve] at hp
    | ok idr =>
      have hres : (CharmStore.Resolve (Except.ok idr) ref).res =
          .ok (idr, []) := rfl
      rw [hres] at hp
      injection hp with hph
      rw [← hph]

/-- Witness for C10: a concrete successful registry-backend resolve whose
extra supported-series component is empty. -/
theorem C10_resolve_extra_series_nil_witness :
    (CharmStore.Resolve (.ok curlFix) curlFix).res = .ok (curlFix, [])
    ∧ ((curlFix, ([] : List String))).2 = [] :=
  ⟨rfl, C10_resolve_extra_series_nil.2 (.ok curlFix) curlFix (curlFix, []) rfl⟩
